import Mathlib

/-!
Verification of the Financasbackup personal-finance application.

The repository snapshot contains the client single-page app
(src/frontend/src/App.js) and a deploy script.  The backend aggregator and
record store (FastAPI server) are not part of the snapshot, so the
aggregation operations (`computeMonthlyReport`, `computeAnnualDashboard`,
the AlertLimit upsert and the transactions store) are modelled from the
specification; the client-side operations (`handleAddTransaction`,
`submitEnabled`, the chart-data mapping) are embedded from App.js.

Monetary amounts are modelled as exact rationals (ℚ); the spec's amounts
are decimals.
-/

namespace Financas

/-- Transaction kind: income (`receita`) or expense (`despesa`). -/
inductive Tipo where
  | receita : Tipo
  | despesa : Tipo
deriving DecidableEq, Repr

/-- A calendar date (year, month, day); the components the aggregation
reads from a transaction timestamp. -/
structure DateT where
  ano : Int
  mes : Nat
  dia : Nat
deriving DecidableEq, Repr

/-- A recorded transaction (spec §3): identifier, kind, positive amount,
description, timestamp. -/
structure Transaction where
  id : Nat
  tipo : Tipo
  valor : Rat
  descricao : String
  data : DateT
deriving DecidableEq, Repr

/-- A derived monthly report (spec §3), field names as the client reads
them from the API response (App.js lines 292-342). -/
structure MonthlyReport where
  total_receitas : Rat
  total_despesas : Rat
  saldo : Rat
  limite_configurado : Option Rat
  limite_excedido : Bool
deriving DecidableEq, Repr

/-- Sum of the amounts of a list of transactions. -/
def sumValores (txs : List Transaction) : Rat :=
  (txs.map Transaction.valor).sum

/-- The income transactions of a list. -/
def receitasOf (txs : List Transaction) : List Transaction :=
  txs.filter (fun t => t.tipo == Tipo.receita)

/-- The expense transactions of a list. -/
def despesasOf (txs : List Transaction) : List Transaction :=
  txs.filter (fun t => t.tipo == Tipo.despesa)

/-- Modelled from the spec: §4.1 `computeMonthlyReport` (the backend
aggregator source is not in the repository snapshot).  Partition by kind,
total income and expense are the sums of the respective amounts,
balance is income minus expense, and the limit-exceeded flag is set iff a
limit is present and total expense strictly exceeds it. -/
def computeMonthlyReport (txs : List Transaction) (limit : Option Rat) :
    MonthlyReport :=
  let ti := sumValores (receitasOf txs)
  let te := sumValores (despesasOf txs)
  { total_receitas := ti
    total_despesas := te
    saldo := ti - te
    limite_configurado := limit
    limite_excedido :=
      match limit with
      | none => false
      | some l => decide (l < te) }

/-- One entry of the annual dashboard (`dados_mensais` in the API
response the client reads, App.js lines 131-136).  The month is an
integer as transmitted over JSON. -/
structure MonthSummary where
  mes : Int
  receitas : Rat
  despesas : Rat
  saldo : Rat
deriving DecidableEq, Repr

/-- Whether a transaction's timestamp falls in the given (month, year). -/
def inMonthYear (m : Nat) (y : Int) (t : Transaction) : Bool :=
  t.data.mes == m && t.data.ano == y

/-- Modelled from the spec: §4.1 `computeAnnualDashboard` (the backend
aggregator source is not in the repository snapshot).  For each month 1..12
of the requested year, compute income, expense and balance exactly as in
`computeMonthlyReport` (without limit) over the transactions dated in that
month and year; output ordered by month ascending, one entry per month. -/
def computeAnnualDashboard (txs : List Transaction) (year : Int) :
    List MonthSummary :=
  (List.range 12).map (fun i =>
    let m := i + 1
    let r := computeMonthlyReport (txs.filter (inMonthYear m year)) none
    { mes := (m : Int)
      receitas := r.total_receitas
      despesas := r.total_despesas
      saldo := r.saldo })

/-- Specification-side income total: sum of amounts where kind = income,
written as a direct fold over the transaction list. -/
def incomeSum (txs : List Transaction) : Rat :=
  txs.foldr (fun t acc => if t.tipo = Tipo.receita then t.valor + acc else acc) 0

/-- Specification-side expense total: sum of amounts where kind = expense. -/
def expenseSum (txs : List Transaction) : Rat :=
  txs.foldr (fun t acc => if t.tipo = Tipo.despesa then t.valor + acc else acc) 0

/-- A configured spending-limit alert (spec §3): (month, year) with a
monthly expense ceiling, field names as the client posts them
(App.js lines 102-117). -/
structure AlertLimit where
  mes : Nat
  ano : Int
  limite_mensal : Rat
deriving DecidableEq, Repr

/-- Whether an alert record is keyed by the given (month, year). -/
def sameKey (m : Nat) (y : Int) (b : AlertLimit) : Bool :=
  b.mes == m && b.ano == y

/-- Modelled from the spec: §3/§6 `POST /alerts` upserts an AlertLimit
(the backend store source is not in the repository snapshot).  If a record
with the same (month, year) exists it is replaced in place, otherwise the
new record is appended. -/
def upsertAlert (a : AlertLimit) (store : List AlertLimit) : List AlertLimit :=
  if store.any (sameKey a.mes a.ano) then
    store.map (fun b => if sameKey a.mes a.ano b then a else b)
  else
    store ++ [a]

/-- Store invariant: at most one alert record per (month, year) pair. -/
def atMostOnePerKey (store : List AlertLimit) : Prop :=
  ∀ m y, store.countP (sameKey m y) ≤ 1

/-- An API operation against the transaction store (spec §6): create a
transaction, delete one by identifier, or request a monthly report. -/
inductive Op where
  | addTx : Transaction → Op
  | deleteTx : Nat → Op
  | getReport : Nat → Int → Option Rat → Op

/-- Modelled from the spec: §5/§6 request handling (the backend source is
not in the repository snapshot).  Each operation reads the current
transaction store; `getReport` recomputes the monthly report from the
current store — reports are derived, never persisted. -/
def applyOp (s : List Transaction) : Op → List Transaction × Option MonthlyReport
  | Op.addTx t => (s ++ [t], none)
  | Op.deleteTx i => (s.filter (fun t => t.id != i), none)
  | Op.getReport m y lim =>
      (s, some (computeMonthlyReport (s.filter (inMonthYear m y)) lim))

/-- The transaction store after running a sequence of operations. -/
def execState (s : List Transaction) : List Op → List Transaction
  | [] => s
  | op :: ops => execState (applyOp s op).1 ops

/-- The reports returned to callers, in order, while running a sequence of
operations. -/
def runOutputs (s : List Transaction) : List Op → List MonthlyReport
  | [] => []
  | op :: ops => ((applyOp s op).2).toList ++ runOutputs (applyOp s op).1 ops

/-- Value of a digit string, most significant first. -/
def digitsVal (ds : List Char) : Nat :=
  ds.foldl (fun acc c => 10 * acc + (c.toNat - 48)) 0

/-- Exponent part of a JavaScript float literal: `e`/`E`, optional sign,
digits; `none` when absent or when no digits follow the `e` (in which case
`parseFloat` ignores the exponent). -/
def parseExp (cs : List Char) : Option Int :=
  match cs with
  | [] => none
  | c :: rest =>
    if c = 'e' ∨ c = 'E' then
      let (sign, rest2) : Int × List Char :=
        match rest with
        | '+' :: r => (1, r)
        | '-' :: r => (-1, r)
        | _ => (1, rest)
      let ds := rest2.takeWhile Char.isDigit
      if ds = [] then none else some (sign * (digitsVal ds : Int))
    else none

/-- Unsigned part of JavaScript `parseFloat`: digits, optional decimal
point and fraction digits, optional exponent; `none` (NaN) when no digit
is parsed; trailing garbage is ignored. -/
def parseUnsigned (cs : List Char) : Option Rat :=
  let intDs := cs.takeWhile Char.isDigit
  let rest1 := cs.drop intDs.length
  let (fracDs, rest2) : List Char × List Char :=
    match rest1 with
    | '.' :: r => (r.takeWhile Char.isDigit, r.drop (r.takeWhile Char.isDigit).length)
    | _ => ([], rest1)
  if intDs = [] ∧ fracDs = [] then none
  else
    let mant : Rat :=
      (digitsVal intDs : Rat) + (digitsVal fracDs : Rat) / (10 : Rat) ^ fracDs.length
    match parseExp rest2 with
    | some e => some (mant * (10 : Rat) ^ e)
    | none => some mant

/-- JavaScript `parseFloat` on the raw form input: skip leading
whitespace, optional sign, then the unsigned part; `none` models NaN. -/
def jsParseFloat (s : String) : Option Rat :=
  let cs := s.data.dropWhile Char.isWhitespace
  match cs with
  | '-' :: rest => (parseUnsigned rest).map (fun q => -q)
  | '+' :: rest => parseUnsigned rest
  | _ => parseUnsigned cs

/-- The client's new-transaction form state (App.js lines 36-40): raw
string fields. -/
structure TransactionForm where
  tipo : String
  valor : String
  descricao : String
deriving DecidableEq, Repr

/-- The request body posted to `POST /transactions` (App.js lines 78-83);
`valor` is `parseFloat` of the raw input (`none` models NaN). -/
structure NewTransactionRequest where
  tipo : String
  valor : Option Rat
  descricao : String
  data : DateT
deriving DecidableEq, Repr

set_option linter.unusedVariables false in
/-- `handleAddTransaction` (App.js lines 75-91): posts
`{tipo, valor: parseFloat(valor), descricao, data: new Date().toISOString()}`.
`now` is the submission instant; `currentMonth` and `currentYear` are the
component state in scope, unused by the request body. -/
def handleAddTransaction (form : TransactionForm) (now : DateT)
    (currentMonth : Nat) (currentYear : Int) : NewTransactionRequest :=
  { tipo := form.tipo
    valor := jsParseFloat form.valor
    descricao := form.descricao
    data := now }

/-- The submit button's enabled condition (App.js line 244):
`disabled={!newTransaction.tipo || !newTransaction.valor}`; a JavaScript
string is truthy iff non-empty. -/
def submitEnabled (form : TransactionForm) : Bool :=
  !(form.tipo == "") && !(form.valor == "")

/-- The `months` array of Portuguese month names (App.js lines 20-23). -/
def monthNames : List String :=
  ["Janeiro", "Fevereiro", "Março", "Abril", "Maio", "Junho",
   "Julho", "Agosto", "Setembro", "Outubro", "Novembro", "Dezembro"]

/-- JavaScript array indexing `months[i]`: `undefined` (here `none`)
outside the bounds, including negative indices. -/
def monthLookup (i : Int) : Option String :=
  if 0 ≤ i then monthNames[i.toNat]? else none

/-- One point of the client's chart data (App.js lines 131-136). -/
structure ChartPoint where
  mes : String
  receitas : Rat
  despesas : Rat
  saldo : Rat
deriving DecidableEq, Repr

/-- The mapping applied to one dashboard entry (App.js lines 131-136):
`months[item.mes - 1].substring(0, 3)` plus the three totals; `none` when
the month lookup is `undefined`, making `substring` throw. -/
def chartEntry (item : MonthSummary) : Option ChartPoint :=
  (monthLookup (item.mes - 1)).map (fun name =>
    { mes := name.take 3
      receitas := item.receitas
      despesas := item.despesas
      saldo := item.saldo })

/-- The client's `chartData` (App.js lines 131-136): the entry mapping
over `dados_mensais`; the whole mapping fails (`none`) when any entry
throws. -/
def chartData : List MonthSummary → Option (List ChartPoint)
  | [] => some []
  | item :: rest =>
    match chartEntry item, chartData rest with
    | some p, some l => some (p :: l)
    | _, _ => none

lemma sumValores_receitas_eq_incomeSum (txs : List Transaction) :
    sumValores (receitasOf txs) = incomeSum txs := by
  induction txs with
  | nil => rfl
  | cons t rest ih =>
    cases h : t.tipo <;>
      simp [sumValores, receitasOf, incomeSum, List.filter_cons, h] at ih ⊢ <;>
      simp [ih, incomeSum]

lemma sumValores_despesas_eq_expenseSum (txs : List Transaction) :
    sumValores (despesasOf txs) = expenseSum txs := by
  induction txs with
  | nil => rfl
  | cons t rest ih =>
    cases h : t.tipo <;>
      simp [sumValores, despesasOf, expenseSum, List.filter_cons, h] at ih ⊢ <;>
      simp [ih, expenseSum]

/-- C1: for every list of transactions and optional limit, the report's
total income is the sum of amounts of income transactions, its total
expense is the sum of amounts of expense transactions, and its balance is
exactly total income minus total expense. -/
theorem monthly_report_balance_identity (txs : List Transaction)
    (limit : Option Rat) :
    (computeMonthlyReport txs limit).total_receitas = incomeSum txs ∧
    (computeMonthlyReport txs limit).total_despesas = expenseSum txs ∧
    (computeMonthlyReport txs limit).saldo =
      (computeMonthlyReport txs limit).total_receitas -
        (computeMonthlyReport txs limit).total_despesas := by
  refine ⟨?_, ?_, rfl⟩
  · exact sumValores_receitas_eq_incomeSum txs
  · exact sumValores_despesas_eq_expenseSum txs

/-- C2: the limit-exceeded flag is true iff a limit is present and the
total expense strictly exceeds it; with no limit, or when the total
expense equals the limit, the flag is false. -/
theorem limit_exceeded_iff (txs : List Transaction) (limit : Option Rat) :
    ((computeMonthlyReport txs limit).limite_excedido = true ↔
      ∃ l, limit = some l ∧ l < expenseSum txs) ∧
    (computeMonthlyReport txs none).limite_excedido = false ∧
    (computeMonthlyReport txs (some (expenseSum txs))).limite_excedido = false := by
  refine ⟨?_, rfl, ?_⟩
  · cases limit with
    | none => simp [computeMonthlyReport]
    | some l =>
      simp [computeMonthlyReport, sumValores_despesas_eq_expenseSum]
  · simp [computeMonthlyReport, sumValores_despesas_eq_expenseSum]

/-- C4: the monthly report of the empty transaction list with no limit has
zero income, zero expense, zero balance, and the limit-exceeded flag off. -/
theorem monthly_report_empty :
    computeMonthlyReport [] none =
      { total_receitas := 0, total_despesas := 0, saldo := 0,
        limite_configurado := none, limite_excedido := false } := by
  simp [computeMonthlyReport, sumValores, receitasOf, despesasOf]

lemma dashboard_getElem? (txs : List Transaction) (year : Int) (i : Nat)
    (h : i < 12) :
    (computeAnnualDashboard txs year)[i]? = some
      { mes := (i : Int) + 1
        receitas := (computeMonthlyReport (txs.filter (inMonthYear (i + 1) year))
          none).total_receitas
        despesas := (computeMonthlyReport (txs.filter (inMonthYear (i + 1) year))
          none).total_despesas
        saldo := (computeMonthlyReport (txs.filter (inMonthYear (i + 1) year))
          none).saldo } := by
  simp [computeAnnualDashboard, List.getElem?_map, List.getElem?_range, h]

/-- C3: the annual dashboard has exactly 12 entries, entry `i` (0-based)
carries month `i + 1` — so the output is ordered by month ascending with
one entry per month 1..12 — and a month with no transactions in the
requested year yields an all-zero entry. -/
theorem dashboard_twelve_months (txs : List Transaction) (year : Int) :
    (computeAnnualDashboard txs year).length = 12 ∧
    ∀ i : Nat, i < 12 →
      ((computeAnnualDashboard txs year)[i]?).map MonthSummary.mes =
        some ((i : Int) + 1) ∧
      (txs.filter (inMonthYear (i + 1) year) = [] →
        (computeAnnualDashboard txs year)[i]? =
          some { mes := (i : Int) + 1, receitas := 0, despesas := 0,
                 saldo := 0 }) := by
  refine ⟨by simp [computeAnnualDashboard], fun i hi => ⟨?_, fun hempty => ?_⟩⟩
  · rw [dashboard_getElem? txs year i hi]
    rfl
  · rw [dashboard_getElem? txs year i hi, hempty]
    simp [computeMonthlyReport, sumValores, receitasOf, despesasOf]

/-- Witness for C3 at the empty transaction list, year 2024, month entry 0. -/
theorem dashboard_twelve_months_witness :
    (computeAnnualDashboard [] 2024).length = 12 ∧
    ((computeAnnualDashboard [] 2024)[0]?).map MonthSummary.mes = some 1 ∧
    (computeAnnualDashboard [] 2024)[0]? =
      some { mes := 1, receitas := 0, despesas := 0, saldo := 0 } := by
  have h := dashboard_twelve_months [] 2024
  have h2 := h.2 0 (by norm_num)
  exact ⟨h.1, by simpa using h2.1, by simpa using h2.2 rfl⟩

lemma filter_cons_of_notin (t : Transaction) (txs : List Transaction)
    (m : Nat) (y : Int) (h : t.data.ano ≠ y ∨ t.data.mes ≠ m) :
    (t :: txs).filter (inMonthYear m y) = txs.filter (inMonthYear m y) := by
  have hf : inMonthYear m y t = false := by
    rcases h with h | h <;> simp [inMonthYear, h]
  simp [List.filter_cons, hf]

/-- C5: the annual dashboard depends only on the transactions of the
requested year — prepending a transaction of another year leaves the whole
dashboard unchanged — and each month's entry depends only on the
transactions of that (month, year): prepending a transaction dated outside
the pair leaves that month's entry unchanged. -/
theorem dashboard_locality (t : Transaction) (txs : List Transaction)
    (year : Int) :
    (t.data.ano ≠ year →
      computeAnnualDashboard (t :: txs) year = computeAnnualDashboard txs year) ∧
    ∀ i : Nat, i < 12 → (t.data.ano ≠ year ∨ t.data.mes ≠ i + 1) →
      (computeAnnualDashboard (t :: txs) year)[i]? =
        (computeAnnualDashboard txs year)[i]? := by
  constructor
  · intro hy
    unfold computeAnnualDashboard
    refine List.map_congr_left (fun i _ => ?_)
    simp only [filter_cons_of_notin t txs (i + 1) year (Or.inl hy)]
  · intro i hi hout
    rw [dashboard_getElem? _ year i hi, dashboard_getElem? txs year i hi,
      filter_cons_of_notin t txs (i + 1) year hout]

/-- Witness for C5: a transaction dated 2023 does not change the 2024
dashboard nor its January entry. -/
theorem dashboard_locality_witness :
    computeAnnualDashboard [⟨1, Tipo.receita, 5, "x", ⟨2023, 1, 1⟩⟩] 2024 =
      computeAnnualDashboard [] 2024 ∧
    (computeAnnualDashboard [⟨1, Tipo.receita, 5, "x", ⟨2023, 1, 1⟩⟩] 2024)[0]? =
      (computeAnnualDashboard [] 2024)[0]? := by
  have h := dashboard_locality ⟨1, Tipo.receita, 5, "x", ⟨2023, 1, 1⟩⟩ [] 2024
  exact ⟨h.1 (by norm_num), h.2 0 (by norm_num) (Or.inl (by norm_num))⟩

lemma sameKey_self (a : AlertLimit) : sameKey a.mes a.ano a = true := by
  simp [sameKey]

lemma sameKey_ne (m : Nat) (y : Int) (a : AlertLimit)
    (h : ¬(m = a.mes ∧ y = a.ano)) : sameKey m y a = false := by
  simp only [sameKey, Bool.and_eq_false_iff, beq_eq_false_iff_ne, ne_eq]
  by_cases h1 : a.mes = m
  · exact Or.inr (fun h2 => h ⟨h1.symm, h2.symm⟩)
  · exact Or.inl h1

lemma countP_map_replace_self (a : AlertLimit) (store : List AlertLimit) :
    (store.map (fun b => if sameKey a.mes a.ano b then a else b)).countP
        (sameKey a.mes a.ano) =
      store.countP (sameKey a.mes a.ano) := by
  induction store with
  | nil => rfl
  | cons b rest ih =>
    by_cases hb : sameKey a.mes a.ano b = true
    · simp [List.countP_cons, hb, sameKey_self, ih]
    · simp [List.countP_cons, hb, ih]

lemma countP_map_replace_other (a : AlertLimit) (m : Nat) (y : Int)
    (store : List AlertLimit) (hk : sameKey m y a = false) :
    (store.map (fun b => if sameKey a.mes a.ano b then a else b)).countP
        (sameKey m y) ≤
      store.countP (sameKey m y) := by
  induction store with
  | nil => simp
  | cons b rest ih =>
    rw [List.map_cons, List.countP_cons, List.countP_cons]
    refine Nat.add_le_add ih ?_
    by_cases hb : sameKey a.mes a.ano b = true
    · rw [if_pos hb, hk]
      simp
    · rw [if_neg hb]

/-- C6: the store keeps at most one AlertLimit per (month, year): if the
invariant holds, it still holds after an upsert, and after upserting for a
pair exactly one record with that pair is in the store — the prior value
was replaced, not duplicated, so a listing never shows two limits for the
same pair. -/
theorem alert_limit_unique_per_pair (a : AlertLimit) (store : List AlertLimit)
    (hinv : atMostOnePerKey store) :
    atMostOnePerKey (upsertAlert a store) ∧
    (upsertAlert a store).countP (sameKey a.mes a.ano) = 1 := by
  by_cases hex : store.any (sameKey a.mes a.ano) = true
  · constructor
    · intro m y
      by_cases hkey : m = a.mes ∧ y = a.ano
      · obtain ⟨rfl, rfl⟩ := hkey
        rw [upsertAlert, if_pos hex, countP_map_replace_self]
        exact hinv _ _
      · rw [upsertAlert, if_pos hex]
        exact le_trans
          (countP_map_replace_other a m y store (sameKey_ne m y a hkey))
          (hinv m y)
    · rw [upsertAlert, if_pos hex, countP_map_replace_self]
      have h1 : 0 < store.countP (sameKey a.mes a.ano) :=
        List.countP_pos_iff.mpr (List.any_eq_true.mp hex)
      have h2 := hinv a.mes a.ano
      omega
  · have hzero : store.countP (sameKey a.mes a.ano) = 0 := by
      rw [List.countP_eq_zero]
      intro b hb hkb
      exact hex (List.any_eq_true.mpr ⟨b, hb, hkb⟩)
    constructor
    · intro m y
      rw [upsertAlert, if_neg hex, List.countP_append]
      by_cases hkey : m = a.mes ∧ y = a.ano
      · obtain ⟨rfl, rfl⟩ := hkey
        rw [hzero]
        simp [List.countP_cons, sameKey_self]
      · have h1 := hinv m y
        have h2 : List.countP (sameKey m y) [a] = 0 := by
          simp [List.countP_cons, sameKey_ne m y a hkey]
        omega
    · rw [upsertAlert, if_neg hex, List.countP_append, hzero]
      simp [List.countP_cons, sameKey_self]

/-- Witness for C6: upserting a limit for (1, 2024) into a store already
holding one for that pair leaves exactly one record for the pair, and the
at-most-one invariant holds. -/
theorem alert_limit_unique_per_pair_witness :
    (upsertAlert ⟨1, 2024, 200⟩ [⟨1, 2024, 100⟩]).countP (sameKey 1 2024) = 1 ∧
    atMostOnePerKey (upsertAlert ⟨1, 2024, 200⟩ [⟨1, 2024, 100⟩]) := by
  have hinv : atMostOnePerKey [⟨1, 2024, 100⟩] := fun m y =>
    le_trans (List.countP_le_length _) (by simp)
  have h := alert_limit_unique_per_pair ⟨1, 2024, 200⟩ [⟨1, 2024, 100⟩] hinv
  exact ⟨h.2, h.1⟩

lemma runOutputs_append (s : List Transaction) (l1 l2 : List Op) :
    runOutputs s (l1 ++ l2) =
      runOutputs s l1 ++ runOutputs (execState s l1) l2 := by
  induction l1 generalizing s with
  | nil => rfl
  | cons op ops ih => simp [runOutputs, execState, ih, List.append_assoc]

/-- C7: reports are derived, never cached: the reports returned while
running a prefix of operations are unchanged by whatever runs afterwards
(the output list of the prefix is a prefix of the output list); a report
requested after deleting a transaction by identifier is recomputed from
the current store, which no longer contains any transaction with that
identifier. -/
theorem delete_frame_no_caching (s : List Transaction) (ops rest : List Op)
    (i m : Nat) (y : Int) (lim : Option Rat) :
    runOutputs s (ops ++ rest) =
      runOutputs s ops ++ runOutputs (execState s ops) rest ∧
    runOutputs s (ops ++ [Op.deleteTx i, Op.getReport m y lim]) =
      runOutputs s ops ++
        [computeMonthlyReport
          (((execState s ops).filter (fun t => t.id != i)).filter
            (inMonthYear m y)) lim] ∧
    ((execState s ops).filter (fun t => t.id != i)).all
      (fun t => t.id != i) = true := by
  refine ⟨runOutputs_append s ops rest, ?_, ?_⟩
  · rw [runOutputs_append]
    rfl
  · rw [List.all_eq_true]
    intro t ht
    exact (List.mem_filter.mp ht).2

/-- C8: the request posted by `handleAddTransaction` is timestamped with
the submission instant and does not depend on the month and year selected
in the UI — so relative to the moment of submission the created
transaction is never dated in a past or future month. -/
theorem add_transaction_uses_submission_instant (form : TransactionForm)
    (now : DateT) (m m' : Nat) (y y' : Int) :
    handleAddTransaction form now m y = handleAddTransaction form now m' y' ∧
    (handleAddTransaction form now m y).data = now :=
  ⟨rfl, rfl⟩

/-- C9: the form's submit button is enabled exactly when the kind and
amount fields are non-empty, and for some such input (here `"-5"`) the
posted amount is zero or negative — no client-side positivity check
intervenes. -/
theorem negative_amount_reaches_server :
    (∀ form : TransactionForm,
      submitEnabled form = true ↔ form.tipo ≠ "" ∧ form.valor ≠ "") ∧
    ∃ (form : TransactionForm) (now : DateT) (m : Nat) (y : Int),
      submitEnabled form = true ∧
      (handleAddTransaction form now m y).valor = some (-5) ∧
      (-5 : Rat) ≤ 0 := by
  constructor
  · intro form
    simp [submitEnabled]
  · refine ⟨⟨"despesa", "-5", "mercado"⟩, ⟨2025, 1, 1⟩, 1, 2025, rfl, ?_, by
      norm_num⟩
    show jsParseFloat "-5" = some (-5)
    have hred : jsParseFloat "-5" =
        some (-(((5 : ℕ) : ℚ) + ((0 : ℕ) : ℚ) / (10 : ℚ) ^ (0 : ℕ))) := rfl
    rw [hred]
    norm_num

lemma monthLookup_in_range (m : Int) (h1 : 1 ≤ m) (h2 : m ≤ 12) :
    ∃ name, monthLookup (m - 1) = some name := by
  have h0 : 0 ≤ m - 1 := by omega
  have hlt : (m - 1).toNat < monthNames.length := by
    rw [show monthNames.length = 12 from rfl]
    omega
  exact ⟨monthNames[(m - 1).toNat],
    by simp [monthLookup, h0, List.getElem?_eq_getElem hlt]⟩

/-- C10: when every dashboard entry has a month between 1 and 12 the
client's chart-data mapping is total and maps the entries in order (it is
exactly a `List.map`); an entry with a month outside 1..12 (here 13) makes
the month lookup `undefined`, so the mapping of that entry throws. -/
theorem chart_mapping_total_iff_in_range :
    (∀ d : List MonthSummary, (∀ e ∈ d, 1 ≤ e.mes ∧ e.mes ≤ 12) →
      chartData d = some (d.map (fun e =>
        { mes := ((monthLookup (e.mes - 1)).getD "").take 3
          receitas := e.receitas
          despesas := e.despesas
          saldo := e.saldo }))) ∧
    chartEntry { mes := 13, receitas := 0, despesas := 0, saldo := 0 } =
      none := by
  constructor
  · intro d hd
    induction d with
    | nil => rfl
    | cons e rest ih =>
      have he := hd e (by simp)
      have hrest : ∀ x ∈ rest, 1 ≤ x.mes ∧ x.mes ≤ 12 := fun x hx =>
        hd x (by simp [hx])
      obtain ⟨name, hname⟩ := monthLookup_in_range e.mes he.1 he.2
      simp [chartData, chartEntry, hname, ih hrest]
  · rfl

/-- Witness for C10: a single in-range entry (January) maps to the chart
point labelled `"Jan"`. -/
theorem chart_mapping_witness :
    chartData [{ mes := 1, receitas := 0, despesas := 0, saldo := 0 }] =
      some [{ mes := "Jan", receitas := 0, despesas := 0, saldo := 0 }] := by
  have h := chart_mapping_total_iff_in_range.1
    [{ mes := 1, receitas := 0, despesas := 0, saldo := 0 }] (by norm_num)
  rw [h]
  rfl

end Financas
